import Mathlib

/-!
Shallow embedding of the evaluator module of the repository
(src/jedi/evaluate/__init__.py).  Syntax nodes, er-wrapper objects and the
external collaborator modules (finder, imports, precedence, iterable,
compiled, stdlib, debug) are modelled as data and as function-valued fields
of a `Collab` record; the control flow of the evaluator itself is translated
line by line.  Object identity of Python nodes is modelled by Nat ids.
-/

/-- A parser Name node: identity plus its string. -/
structure NameRef where
  id : Nat
  str : String
deriving DecidableEq

/-- Position (line, column). -/
abbrev Pos := Nat × Nat

/-- The base of an er.Instance: either an er.Class (carrying the id of the
er.Class wrapper and the id of the pr.Class syntax node it wraps, its
`.base`), or a compiled object. -/
inductive InstBase where
  | ofClass (clsId : Nat) (baseId : Nat)
  | ofCompiled (cid : Nat)
deriving DecidableEq

/-- The closed set of inferred type values handled by the evaluator:
er.Module/ModuleWrapper, er.Class (with the id of the wrapped pr.Class as
`baseId`), er.Function (with its declared parameter names), er.Instance,
compiled.CompiledObject, iterable.Array instances and
iterable.GeneratorComprehension. -/
inductive TV where
  | module (id : Nat)
  | cls (id : Nat) (baseId : Nat)
  | func (id : Nat) (params : List NameRef)
  | inst (id : Nat) (base : InstBase)
  | compiled (id : Nat)
  | arrayInst (id : Nat)
  | genComp (id : Nat)
deriving DecidableEq

def isFuncTV : TV → Bool
  | TV.func _ _ => true
  | _ => false

def isCompiledTV : TV → Bool
  | TV.compiled _ => true
  | _ => false

def isInstanceTV : TV → Bool
  | TV.inst _ _ => true
  | _ => false

/-- params attribute of a value (er.Function declares params). -/
def tvParams : TV → List NameRef
  | TV.func _ ps => ps
  | _ => []

/-- Array literal kinds (pr.Array.TUPLE / LIST / DICT / SET / NOARRAY). -/
inductive ArrType where
  | tuple
  | list
  | dict
  | set
  | noarray
deriving DecidableEq

/-- First element of one assignment expression list: its node id and the
string of `expr_list[0].name`. -/
structure AssTarget where
  id : Nat
  name : String
deriving DecidableEq

mutual

/-- A pr.ExprStmt.  `fake` is `some results` for a helpers.FakeStatement
whose expression list already contains the evaluated results; `exprListH` is
an opaque handle to `stmt.expression_list()` handed to the precedence
collaborator; `assDetails` models `stmt.assignment_details` as pairs of
(first element of the target expression list, operator string);
`definedNames` models `stmt.get_defined_names()`. -/
inductive Stmt where
  | mk (sid : Nat) (fake : Option (List TV)) (exprListH : Nat)
      (assDetails : List (AssTarget × String)) (isInstanceElement : Bool)
      (parent : PNode) (startPos : Pos) (definedNames : List NameRef)

/-- Parent chain of syntax / wrapper nodes, as far as the evaluator
inspects it: pr.Flow, pr.ForFlow, pr.Array used as a statement parent
(with its `previous` sibling in the call chain), pr.Class, function
scopes, er.Instance, compiled objects and the top level pr.SubModule. -/
inductive PNode where
  | flow (id : Nat) (parent : PNode)
  | forFlow (id : Nat) (parent : PNode)
  | arrParent (id : Nat) (atype : ArrType) (previous : Option CallChain) (parent : PNode)
  | classNode (id : Nat) (parent : PNode)
  | funcNode (id : Nat) (parent : PNode)
  | instNode (id : Nat) (base : InstBase) (parent : PNode)
  | compiledNode (id : Nat) (parent : PNode)
  | subModule (id : Nat)

/-- A chain of sibling call nodes linked by `previous`; `base` has no
previous sibling. -/
inductive CallChain where
  | base (c : CallNode)
  | cons (c : CallNode) (prev : CallChain)

/-- A call-chain node, with the data the evaluator extracts from it in
eval_call: `generate_call_path()`, the enclosing scope found by climbing
to the first scope parent, and the start position of the climbed
statement. -/
inductive CallNode where
  | mk (pathSegs : List Segment) (scope : PNode) (startPos : Pos)

/-- One element of a generated call path: a pr.Name, a pr.Array
(subscript/call/literal array) or a pr.Literal (opaque literal handle). -/
inductive Segment where
  | name (n : NameRef)
  | arr (a : ArrNode)
  | lit (v : Nat)

/-- A pr.Array node: its kind, the statements it contains, and
`firstListComp = some h` exactly when `current[0].expression_list()[0]`
exists and is a pr.ListComprehension with handle `h` (the IndexError paths
of the source correspond to `none`). -/
inductive ArrNode where
  | mk (aid : Nat) (atype : ArrType) (stmts : List Stmt) (firstListComp : Option Nat)

end

def Stmt.sid : Stmt → Nat
  | Stmt.mk s _ _ _ _ _ _ _ => s

def Stmt.fake : Stmt → Option (List TV)
  | Stmt.mk _ f _ _ _ _ _ _ => f

def Stmt.exprListH : Stmt → Nat
  | Stmt.mk _ _ e _ _ _ _ _ => e

def Stmt.assDetails : Stmt → List (AssTarget × String)
  | Stmt.mk _ _ _ a _ _ _ _ => a

def Stmt.isInstanceElement : Stmt → Bool
  | Stmt.mk _ _ _ _ i _ _ _ => i

def Stmt.parent : Stmt → PNode
  | Stmt.mk _ _ _ _ _ p _ _ => p

def Stmt.startPos : Stmt → Pos
  | Stmt.mk _ _ _ _ _ _ p _ => p

def Stmt.definedNames : Stmt → List NameRef
  | Stmt.mk _ _ _ _ _ _ _ d => d

def CallNode.pathSegs : CallNode → List Segment
  | CallNode.mk p _ _ => p

def CallNode.scope : CallNode → PNode
  | CallNode.mk _ s _ => s

def CallNode.startPos : CallNode → Pos
  | CallNode.mk _ _ p => p

def ArrNode.atype : ArrNode → ArrType
  | ArrNode.mk _ t _ _ => t

def ArrNode.stmts : ArrNode → List Stmt
  | ArrNode.mk _ _ s _ => s

def ArrNode.firstListComp : ArrNode → Option Nat
  | ArrNode.mk _ _ _ f => f

/-- str(...) of a path element when used as a name (pr.Name carries its
string; a literal stringifies its value). -/
def segStr : Segment → String
  | Segment.name n => n.str
  | Segment.arr _ => ""
  | Segment.lit v => toString v

/-- var_name.startswith with a double underscore argument: the first two
characters are underscores (stated on the character list so that concrete
instances evaluate). -/
def startsWithDunder (s : String) : Bool :=
  s.data.take 2 = ['_', '_']

/-- var_name.endswith with a double underscore argument: the last two
characters are underscores. -/
def endsWithDunder (s : String) : Bool :=
  s.data.reverse.take 2 = ['_', '_']

/-- A scope argument as passed to find_types: a type value, a syntax node,
or an er.ModuleWrapper around a top-level module. -/
inductive SScope where
  | tv (t : TV)
  | node (n : PNode)
  | moduleWrapper (id : Nat)

/-- Import statement data used by goto: the alias Name (or none) and
`get_all_import_names()`. -/
structure ImportData where
  iid : Nat
  aliasName : Option NameRef
  importNames : List NameRef

/-- External collaborators of the evaluator module (finder, imports,
precedence, iterable, compiled, stdlib, er) as opaque-function fields.
They are out of scope for the module under analysis; every claim is proved
for all instantiations of this record unless a counterexample fixes one. -/
structure Collab where
  nfScopes : SScope → String → Option Pos → Bool → List SScope
  nfFind : SScope → String → Option Pos → List SScope → Bool → Bool → List TV
  nfFilterName : SScope → String → Option Pos → List SScope → List NameRef
  followImports : List TV → List TV
  processPrecedence : Nat → Option (List TV)
  calculate : List TV → String → List TV → List TV
  findAssignments : AssTarget → List TV → String → List TV
  hasGetIndexTypes : TV → Bool
  getIndexTypes : TV → ArrNode → List TV
  getIndexTypesCompiled : TV → ArrNode → List TV
  stdlibExec : TV → ArrNode → Option (List TV)
  pyCall : TV → Option (ArrNode → List TV)
  getDecoratedFunc : TV → TV
  magicFunctionScope : TV → TV
  compiledCreate : Nat → TV
  wrapArray : ArrNode → TV
  importFollow : ImportData → Nat → List NameRef
  pyGetAttributeInit : TV → List TV

/-- Evaluator.find_types, non-goto mode: NameFinder(scope, name, position),
scopes = f.scopes(search_global), then f.find(scopes, resolve_decorator,
search_global). -/
def find_types (C : Collab) (scope : SScope) (nameStr : String)
    (position : Option Pos) (searchGlobal : Bool) (resolveDecorator : Bool) : List TV :=
  C.nfFind scope nameStr position (C.nfScopes scope nameStr position searchGlobal)
    resolveDecorator searchGlobal

/-- Evaluator.find_types with is_goto=True: returns f.filter_name(scopes). -/
def find_types_goto (C : Collab) (scope : SScope) (nameStr : String)
    (position : Option Pos) (searchGlobal : Bool) : List NameRef :=
  C.nfFilterName scope nameStr position (C.nfScopes scope nameStr position searchGlobal)

/-- call_scope.get_parent_until((pr.Class, er.Instance,
compiled.CompiledObject)): starting at the node itself, climb the parent
chain until a node of one of those classes (or the top) is reached. -/
def parentUntilCIC : PNode → PNode
  | PNode.flow _ p => parentUntilCIC p
  | PNode.forFlow _ p => parentUntilCIC p
  | PNode.arrParent _ _ _ p => parentUntilCIC p
  | PNode.funcNode _ p => parentUntilCIC p
  | n => n

/-- `s == scope` where scope is the er.Instance with id `iid`. -/
def sIsInstance : PNode → Nat → Bool
  | PNode.instNode j _ _, i => j = i
  | _, _ => false

/-- `s == scope.base` where scope.base is a CompiledObject with id `cid`. -/
def sIsCompiled : PNode → Nat → Bool
  | PNode.compiledNode j _, c => j = c
  | _, _ => false

/-- `s == scope.base.base` where scope.base.base is the pr.Class with id
`baseId`. -/
def sIsPrClass : PNode → Nat → Bool
  | PNode.classNode j _, b => j = b
  | _, _ => false

/-- filter_private_variable(scope, call_scope, var_name): private variables
begin with a double underscore.  Returns true when the lookup must be
blocked.  Only an er.Instance scope ever blocks; `s` is the nearest
Class/Instance/CompiledObject ancestor of the calling scope, and the
lookup is allowed when `s` is the instance itself, or (for a compiled
base) the base, or (for an er.Class base) the pr.Class that the er.Class
wraps (`scope.base.base`). -/
def filter_private_variable (scope : TV) (callScope : PNode) (varName : String) : Bool :=
  match scope with
  | TV.inst iid ibase =>
    if startsWithDunder varName && !(endsWithDunder varName) then
      let s := parentUntilCIC callScope
      if sIsInstance s iid then false
      else
        match ibase with
        | InstBase.ofCompiled cid => if sIsCompiled s cid then false else true
        | InstBase.ofClass _ baseId => if sIsPrClass s baseId then false else true
    else false
  | _ => false

/-- Evaluator.execute(obj, params).  A decorated er.Function is first
unwrapped via get_decorated_func; then stdlib.execute is attempted (none
models the NotInStdLib exception); then the py__call__ capability of the
object is invoked; if the object has no py__call__ attribute, a
"no execution possible" warning is emitted (second component true) and the
empty result is returned. -/
def execute (C : Collab) (obj : TV) (params : ArrNode) : List TV × Bool :=
  let obj2 := if isFuncTV obj then C.getDecoratedFunc obj else obj
  match C.stdlibExec obj2 params with
  | some r => (r, false)
  | none =>
    match C.pyCall obj2 with
    | none => ([], true)
    | some f => (f params, false)

/-- The Array case of Evaluator._follow_path: a LIST array queries the
get_index_types capability (compiled objects take the evaluator as an
extra argument), any non-DICT array is an execution, and a DICT array
(curly braces) only warns and leaves the empty result. -/
def arrSegResult (C : Collab) (typ : TV) (a : ArrNode) : List TV :=
  if a.atype = ArrType.list then
    if C.hasGetIndexTypes typ then
      if isCompiledTV typ then C.getIndexTypesCompiled typ a
      else C.getIndexTypes typ a
    else []
  else if a.atype ≠ ArrType.dict then (execute C typ a).1
  else []

mutual

/-- Evaluator.follow_path(path, types, call_scope): tee the path iterator
once per candidate type and run _follow_path on each clone; a branch
returning None (stop iteration) makes the whole call return `types`
unchanged, otherwise the branch results are concatenated. -/
def follow_path (C : Collab) (path : List Segment) (types : List TV)
    (callScope : PNode) : List TV :=
  match followBranches C path types callScope with
  | none => types
  | some rs => rs
termination_by (path.length, 2, 0)

/-- The for-loop inside follow_path: accumulates the branch results and
signals none as soon as one branch signals stop iteration. -/
def followBranches (C : Collab) (path : List Segment) (types : List TV)
    (callScope : PNode) : Option (List TV) :=
  match types with
  | [] => some []
  | t :: ts =>
    match _follow_path C path t callScope with
    | none => none
    | some fp =>
      match followBranches C path ts callScope with
      | none => none
      | some rest => some (fp ++ rest)
termination_by (path.length, 1, types.length)

/-- Evaluator._follow_path(path, typ, scope): consume the next path
element for one candidate type; an exhausted path returns none (the stop
iteration signal).  An Array element is handled by arrSegResult; for a
name element on a function the magic function scope replaces the type
(no private filter), otherwise a blocked private lookup returns the empty
result immediately, and an allowed lookup chains find_types through
follow_imports.  Either way the remaining path is followed. -/
def _follow_path (C : Collab) (path : List Segment) (typ : TV)
    (scope : PNode) : Option (List TV) :=
  match path with
  | [] => none
  | current :: rest =>
    match current with
    | Segment.arr a => some (follow_path C rest (arrSegResult C typ a) scope)
    | current2 =>
      if isFuncTV typ then
        some (follow_path C rest
          (C.followImports (find_types C (SScope.tv (C.magicFunctionScope typ))
            (segStr current2) none false true)) scope)
      else if filter_private_variable typ scope (segStr current2) then some []
      else
        some (follow_path C rest
          (C.followImports (find_types C (SScope.tv typ)
            (segStr current2) none false true)) scope)
termination_by (path.length, 0, 0)

end

/-- Evaluator.eval_expression_list: create the precedence tree and process
it (both delegated to the precedence collaborator); a falsy result is
replaced by the empty list (`or []`). -/
def eval_expression_list (C : Collab) (h : Nat) : List TV :=
  (C.processPrecedence h).getD []

/-- stmt.parent.get_parent_until(pr.Flow, reverse=True): climb the parent
chain while the node is a Flow (pr.ForFlow is a Flow), returning the first
non-Flow ancestor. -/
def skipFlows : PNode → PNode
  | PNode.flow _ p => skipFlows p
  | PNode.forFlow _ p => skipFlows p
  | n => n

/-- `if isinstance(parent, (pr.SubModule, fast.Module)):
parent = er.ModuleWrapper(self, parent)`. -/
def wrapIfModule : PNode → SScope
  | PNode.subModule i => SScope.moduleWrapper i
  | n => SScope.node n

/-- isinstance(stmt.parent, pr.ForFlow). -/
def isForFlow : PNode → Bool
  | PNode.forFlow _ _ => true
  | _ => false

/-- Evaluator.eval_statement (the undecorated body; the memoize_default and
recursion_decorator wrappers live in jedi/evaluate/cache.py and
jedi/evaluate/recursion.py, which are modelled separately below from the
specification).  A FakeStatement returns its pre-computed contents; an
augmented assignment (first operator not "=") on a non InstanceElement
statement looks the target name up in the enclosing non-Flow scope
(module-wrapped at top level) at the statement position and combines via
precedence.calculate, folding over each result element when the direct
parent is a pr.ForFlow; otherwise, a statement defining several names with
a requested seek name delegates each assignment pair to
finder.find_assignments. -/
def eval_statement (C : Collab) (stmt : Stmt) (seekName : Option String) : List TV :=
  match stmt.fake with
  | some results => results
  | none =>
    let result := eval_expression_list C stmt.exprListH
    match stmt.assDetails with
    | [] => result
    | (tgt, op) :: restDetails =>
      if op ≠ "=" ∧ stmt.isInstanceElement = false then
        let operator := String.mk op.data.dropLast
        let parent := skipFlows stmt.parent
        let left := find_types C (wrapIfModule parent) tgt.name (some stmt.startPos) false true
        if isForFlow stmt.parent then
          result.foldl (fun l r => C.calculate l operator [r]) left
        else C.calculate left operator result
      else if stmt.definedNames.length > 1 ∧ seekName.isSome then
        ((tgt, op) :: restDetails).flatMap
          (fun pr2 => C.findAssignments pr2.1 result (seekName.getD ""))
      else result

/-- Evaluator.eval_call_path(path, scope, position): consume the first path
element.  A NOARRAY array is either a lazy generator comprehension (when
its single first statement is a list comprehension) or the union of the
evaluation of its statements; any other array kind becomes an
iterable.Array; a name is a search-global find_types at the given scope and
position and a literal becomes a compiled object, both passed through
follow_imports.  Then the remaining path is followed. -/
def eval_call_path (C : Collab) (path : List Segment) (scope : PNode)
    (position : Pos) : List TV :=
  match path with
  | [] => []
  | current :: rest =>
    let types : List TV :=
      match current with
      | Segment.arr a =>
        if a.atype = ArrType.noarray then
          match a.firstListComp with
          | some h => [TV.genComp h]
          | none => a.stmts.flatMap (fun s => eval_statement C s none)
        else [C.wrapArray a]
      | Segment.name n =>
        C.followImports (find_types C (SScope.node scope) n.str (some position) true true)
      | Segment.lit v =>
        C.followImports [C.compiledCreate v]
    follow_path C rest types scope

/-- Evaluator.eval_call(call): the call path, enclosing scope and start
position are extracted from the node (syntax-provider operations,
precomputed in the CallNode model) and handed to eval_call_path. -/
def eval_call (C : Collab) (call : CallNode) : List TV :=
  eval_call_path C call.pathSegs call.scope call.startPos

/-- stmt.get_parent_scope(): the nearest enclosing scope node (skipping
flow constructs and array parents). -/
def get_parent_scope : PNode → PNode
  | PNode.flow _ p => get_parent_scope p
  | PNode.forFlow _ p => get_parent_scope p
  | PNode.arrParent _ _ _ p => get_parent_scope p
  | n => n

/-- The backward walk of Evaluator.goto over the copied call chain:
`while call.previous is not None: call = call.previous`. -/
def chainFirst : CallChain → CallNode
  | CallChain.base c => c
  | CallChain.cons _ prev => chainFirst prev

/-- The named-parameter refinement guard of Evaluator.goto:
`pr.Array.is_type(stmt.parent, pr.Array.TUPLE, pr.Array.NOARRAY) and
stmt.parent.previous` — when it applies, the call reached by walking to the
front of the sibling chain is returned. -/
def gotoParamCall (s : Stmt) : Option CallNode :=
  match s.parent with
  | PNode.arrParent _ t (some prev) _ =>
    if t = ArrType.tuple ∨ t = ArrType.noarray then some (chainFirst prev) else none
  | _ => none

/-- The parameter-matching loop of Evaluator.goto: for each evaluated type
of the call, an er.Class contributes the params of its `__init__` methods,
any other value its own params; names equal (as strings) to the defined
parameter name are collected. -/
def gotoParamNames (C : Collab) (tvs : List TV) (target : NameRef) : List NameRef :=
  tvs.flatMap (fun typ =>
    let params :=
      match typ with
      | TV.cls _ _ => (C.pyGetAttributeInit typ).flatMap tvParams
      | _ => tvParams typ
    params.filter (fun p => p.str = target.str))

/-- A goto request receives either a pr.ExprStmt or a pr.Import. -/
inductive GotoStmt where
  | stmt (s : Stmt)
  | imp (i : ImportData)

/-- The fallthrough branch of Evaluator.goto: resolve all but the last path
element from the parent scope of the statement (global, position-scoped
lookup if there is no leading path) and look the final element up in goto
mode on each candidate scope. -/
def gotoNameLookup (C : Collab) (s : Stmt) (callPath : List Segment) : List NameRef :=
  let scope := get_parent_scope s.parent
  let pos := s.startPos
  match callPath.getLast? with
  | none => []
  | some lastSeg =>
    let firstPart := callPath.dropLast
    if firstPart.isEmpty then
      find_types_goto C (SScope.node scope) (segStr lastSeg) (some pos) true
    else
      (eval_call_path C firstPart scope pos).flatMap
        (fun t => find_types_goto C (SScope.tv t) (segStr lastSeg) none false)

/-- names.index(call_path[0]) on the import names (only a Name path element
can be found; the not-found case, which raises in Python, is mapped to the
list length). -/
def idxOfSeg (names : List NameRef) (h : Segment) : Nat :=
  match h with
  | Segment.name hn => names.indexOf hn
  | _ => names.length

/-- Evaluator.goto(stmt, call_path).  For an import, an alias equal to the
first path element is returned as itself; otherwise the trailing imported
names after the first path element are counted and the ImportWrapper
collaborator is asked for a goto-mode follow.  For an expression statement,
a one-element Name path that is one of the defined names of the statement
returns that name itself, refined to the matching declared parameters when
the statement sits in a call-argument tuple; any other path goes through
the name-lookup branch. -/
def goto (C : Collab) (gs : GotoStmt) (callPath : List Segment) : List NameRef :=
  match gs with
  | GotoStmt.imp imp =>
    match callPath with
    | [] => []
    | h :: _ =>
      match h, imp.aliasName with
      | Segment.name hn, some a =>
        if hn = a then [hn]
        else
          let names := imp.importNames.dropLast
          C.importFollow imp (names.length - idxOfSeg names h - 1)
      | _, _ =>
        let names :=
          if imp.aliasName.isSome then imp.importNames.dropLast else imp.importNames
        C.importFollow imp (names.length - idxOfSeg names h - 1)
  | GotoStmt.stmt s =>
    match callPath with
    | [Segment.name n] =>
      if n ∈ s.definedNames then
        match gotoParamCall s with
        | some call =>
          gotoParamNames C (eval_call C call) (s.definedNames.headD (NameRef.mk 0 ""))
        | none => [n]
      else gotoNameLookup C s callPath
    | _ => gotoNameLookup C s callPath

/-- Modelled from the spec: the statement language used to state the
recursion-guard contract on mutually recursive assignments (spec section
4.1 and section 8, "Mutual recursion").  A statement body either refers to
another defined name or is a literal. -/
inductive RExpr where
  | ref (n : String)
  | lit (v : Nat)
deriving DecidableEq

/-- A program: defined name to statement body. -/
abbrev RProg := List (String × RExpr)

def rlookup : RProg → String → Option RExpr
  | [], _ => none
  | (k, e) :: rest, n => if k = n then some e else rlookup rest n

/-- Session state of the guard: the memo cache and the set of keys marked
in progress. -/
structure RState where
  cache : List (String × List Nat)
  inProgress : List String
deriving DecidableEq

def cacheLookup : List (String × List Nat) → String → Option (List Nat)
  | [], _ => none
  | (k, v) :: rest, n => if k = n then some v else cacheLookup rest n

/-- Modelled from the spec: guarded, memoized statement evaluation
(`guarded_eval` of spec section 4.1; jedi/evaluate/recursion.py and
jedi/evaluate/cache.py are not part of the sources).  A cached key returns
its cached Type Set; a key already marked in progress returns the empty
Type Set immediately without recomputing (cycle detected); otherwise the
key is marked, the statement body is evaluated (a reference re-enters the
guard, a literal produces its singleton Type Set), the result is stored
and the mark is cleared.  The fuel argument makes the recursion manifestly
structural; running out of fuel returns none, so a `some` result is a
termination certificate. -/
def evalName (p : RProg) : Nat → RState → String → RState × Option (List Nat)
  | 0, st, _ => (st, none)
  | fuel + 1, st, n =>
    match cacheLookup st.cache n with
    | some r => (st, some r)
    | none =>
      if n ∈ st.inProgress then (st, some [])
      else
        match rlookup p n with
        | none => (st, some [])
        | some (RExpr.lit v) => (RState.mk ((n, [v]) :: st.cache) st.inProgress, some [v])
        | some (RExpr.ref m) =>
          match evalName p fuel (RState.mk st.cache (n :: st.inProgress)) m with
          | (st2, none) => (st2, none)
          | (st2, some r) => (RState.mk ((n, r) :: st2.cache) st.inProgress, some r)

/-- Modelled from the spec: session state of the memoize_default cache of
spec section 4.2 step 5 (jedi/evaluate/cache.py is not part of the
sources): the memo table keyed by (statement identity, target name) and a
counter of collaborator invocations performed by the wrapped computation,
used to observe that a cache hit invokes no collaborator. -/
structure MemoState (kk : Type) where
  memo : List (kk × List TV)
  calls : Nat
deriving DecidableEq

def mLookup {kk : Type} [DecidableEq kk] : List (kk × List TV) → kk → Option (List TV)
  | [], _ => none
  | (k2, v) :: rest, k => if k2 = k then some v else mLookup rest k

def mUpdate {kk : Type} [DecidableEq kk] : List (kk × List TV) → kk → List TV → List (kk × List TV)
  | [], k, v => [(k, v)]
  | (k2, v2) :: rest, k, v =>
    if k2 = k then (k, v) :: rest else (k2, v2) :: mUpdate rest k v

/-- Modelled from the spec: the default entry stored under the key before
the first computation runs — the empty Type Set (spec section 4.2 step 5). -/
def markDefault {kk : Type} [DecidableEq kk] (k : kk) (st : MemoState kk) : MemoState kk :=
  MemoState.mk ((k, ([] : List TV)) :: st.memo) st.calls

/-- Modelled from the spec: memoize_default(default=[]) around
eval_statement (spec sections 3 and 4.2 step 5; jedi/evaluate/cache.py is
not part of the sources).  A key present in the memo returns its cached
Type Set without running the computation; otherwise the default (empty)
entry is stored, the computation runs on that state, and its result
replaces the default. -/
def memoized_eval {kk : Type} [DecidableEq kk] (k : kk)
    (compute : MemoState kk → MemoState kk × List TV) (st : MemoState kk) :
    MemoState kk × List TV :=
  match mLookup st.memo k with
  | some r => (st, r)
  | none =>
    let res := compute (markDefault k st)
    (MemoState.mk (mUpdate res.1.memo k res.2) res.1.calls, res.2)

/-- An exhausted path makes _follow_path signal stop iteration. -/
lemma _follow_path_nil (C : Collab) (t : TV) (s : PNode) :
    _follow_path C [] t s = none := by
  simp [_follow_path]

/-- On a non-exhausted path, _follow_path always produces a branch result. -/
lemma _follow_path_cons_isSome (C : Collab) (s : Segment) (r : List Segment)
    (t : TV) (cs : PNode) : (_follow_path C (s :: r) t cs).isSome := by
  cases s with
  | arr a => simp [_follow_path]
  | name n =>
    by_cases h1 : isFuncTV t
    · simp [_follow_path, h1]
    · by_cases h2 : filter_private_variable t cs (segStr (Segment.name n)) <;>
        simp [_follow_path, h1, h2]
  | lit v =>
    by_cases h1 : isFuncTV t
    · simp [_follow_path, h1]
    · by_cases h2 : filter_private_variable t cs (segStr (Segment.lit v)) <;>
        simp [_follow_path, h1, h2]

/-- With an exhausted path, follow_path returns the incoming types
unchanged: the first branch raises StopIteration, and with no candidates
the loop result is the empty list, which equals the input. -/
lemma follow_path_nil (C : Collab) (types : List TV) (cs : PNode) :
    follow_path C [] types cs = types := by
  cases types <;> simp [follow_path, followBranches, _follow_path]

/-- With a non-exhausted path, the loop of follow_path completes and
returns the concatenation of the branch results, each branch receiving
the full remaining path. -/
lemma followBranches_cons_flatMap (C : Collab) (s : Segment) (r : List Segment)
    (types : List TV) (cs : PNode) :
    followBranches C (s :: r) types cs
      = some (types.flatMap (fun t => (_follow_path C (s :: r) t cs).getD [])) := by
  induction types with
  | nil => simp [followBranches]
  | cons t ts ih =>
    obtain ⟨y, hy⟩ := Option.isSome_iff_exists.mp (_follow_path_cons_isSome C s r t cs)
    rw [followBranches, hy, ih]
    simp [hy]

/-- Unfolding of _follow_path at a name element. -/
lemma _follow_path_name (C : Collab) (n : NameRef) (rest : List Segment)
    (typ : TV) (scope : PNode) :
    _follow_path C (Segment.name n :: rest) typ scope
      = (if isFuncTV typ then
          some (follow_path C rest
            (C.followImports (find_types C (SScope.tv (C.magicFunctionScope typ))
              n.str none false true)) scope)
        else if filter_private_variable typ scope n.str then some []
        else
          some (follow_path C rest
            (C.followImports (find_types C (SScope.tv typ) n.str none false true))
            scope)) := by
  rw [_follow_path]
  · simp only [segStr]
  · exact fun a h => Segment.noConfusion h

/-- Unfolding of _follow_path at an array element. -/
lemma _follow_path_arr (C : Collab) (a : ArrNode) (rest : List Segment)
    (typ : TV) (scope : PNode) :
    _follow_path C (Segment.arr a :: rest) typ scope
      = some (follow_path C rest (arrSegResult C typ a) scope) := by
  rw [_follow_path]

/-- A fixed, fully concrete collaborator instantiation used by the
witnesses and counterexamples: name lookups resolve to nothing, imports
are the identity, and the remaining collaborators are simple constant
functions. -/
def wCollab : Collab where
  nfScopes := fun _ _ _ _ => []
  nfFind := fun _ _ _ _ _ _ => []
  nfFilterName := fun _ _ _ _ => []
  followImports := fun ts => ts
  processPrecedence := fun _ => none
  calculate := fun l _ r => l ++ r
  findAssignments := fun _ _ _ => []
  hasGetIndexTypes := fun _ => false
  getIndexTypes := fun _ _ => []
  getIndexTypesCompiled := fun _ _ => []
  stdlibExec := fun _ _ => none
  pyCall := fun _ => none
  getDecoratedFunc := fun t => t
  magicFunctionScope := fun t => t
  compiledCreate := fun v => TV.compiled v
  wrapArray := fun _ => TV.arrayInst 0
  importFollow := fun _ _ => []
  pyGetAttributeInit := fun _ => []

/-- C3: follow_path duplicates the remaining path cursor once per
candidate type (each branch below receives the identical full path), and
when a branch signals "cannot continue" (its cloned cursor is exhausted,
i.e. _follow_path returns none) the call returns the unresolved input
types unchanged; with a non-exhausted path no branch can signal stop, and
the result is the concatenation of the per-candidate branch results. -/
theorem c3_follow_path_fanout (C : Collab) (path : List Segment)
    (types : List TV) (cs : PNode) :
    ((∃ t ∈ types, _follow_path C path t cs = none) →
      follow_path C path types cs = types) ∧
    (∀ s r, path = s :: r →
      follow_path C path types cs
        = types.flatMap (fun t => (_follow_path C path t cs).getD [])) := by
  constructor
  · rintro ⟨t, _, hnone⟩
    cases path with
    | nil => exact follow_path_nil C types cs
    | cons s r =>
      have h := _follow_path_cons_isSome C s r t cs
      rw [hnone] at h
      simp at h
  · rintro s r rfl
    rw [follow_path, followBranches_cons_flatMap]

theorem c3_follow_path_fanout_witness :
    follow_path wCollab [] [TV.module 1] (PNode.subModule 0) = [TV.module 1] ∧
    follow_path wCollab [Segment.name (NameRef.mk 0 "x")] [TV.module 5] (PNode.subModule 9)
      = ([TV.module 5].flatMap (fun t =>
          (_follow_path wCollab [Segment.name (NameRef.mk 0 "x")] t (PNode.subModule 9)).getD [])) :=
  ⟨(c3_follow_path_fanout wCollab [] [TV.module 1] (PNode.subModule 0)).1
      ⟨TV.module 1, by simp, _follow_path_nil wCollab (TV.module 1) (PNode.subModule 0)⟩,
   (c3_follow_path_fanout wCollab [Segment.name (NameRef.mk 0 "x")] [TV.module 5]
      (PNode.subModule 9)).2 (Segment.name (NameRef.mk 0 "x")) [] rfl⟩

/-- C2 as stated is false on the code: with a non-empty candidate set and
a remaining name element that fails to resolve against every candidate
(the lookup collaborator returns nothing for the single candidate), the
source returns the empty list, not the unresolved input set unchanged.
The unchanged-input return is reserved for the exhausted-cursor signal. -/
theorem c2_counterexample :
    follow_path wCollab [Segment.name (NameRef.mk 0 "x")] [TV.module 5] (PNode.subModule 9)
      ≠ [TV.module 5] ∧
    follow_path wCollab [Segment.name (NameRef.mk 0 "x")] [TV.module 5] (PNode.subModule 9)
      = [] := by
  have h : follow_path wCollab [Segment.name (NameRef.mk 0 "x")] [TV.module 5]
      (PNode.subModule 9) = [] := by
    rw [follow_path, followBranches_cons_flatMap]
    simp [_follow_path_name, isFuncTV, filter_private_variable, find_types, wCollab,
      follow_path_nil]
  exact ⟨by rw [h]; simp, h⟩

/-- C2 (amended): when the remaining path is non-empty and every fan-out
branch fails to resolve the next element (each branch produces the empty
type set), follow_path returns the empty type set; the unresolved input
set is returned unchanged only when the path cursor is exhausted. -/
theorem c2_all_branches_fail_empty (C : Collab) (path : List Segment)
    (types : List TV) (cs : PNode)
    (h : ∀ t ∈ types, _follow_path C path t cs = some []) :
    follow_path C path types cs = [] := by
  have key : ∀ (l : List TV), (∀ t ∈ l, _follow_path C path t cs = some []) →
      followBranches C path l cs = some [] := by
    intro l
    induction l with
    | nil => intro _; rw [followBranches]
    | cons t ts ih =>
      intro hl
      have h1 := hl t (List.mem_cons_self t ts)
      have h2 := fun u hu => hl u (List.mem_cons_of_mem _ hu)
      rw [followBranches, h1, ih h2]
      rfl
  rw [follow_path, key types h]

theorem c2_all_branches_fail_empty_witness :
    follow_path wCollab [Segment.name (NameRef.mk 1 "y")] [TV.module 7, TV.cls 8 9]
      (PNode.subModule 2) = [] :=
  c2_all_branches_fail_empty wCollab [Segment.name (NameRef.mk 1 "y")]
    [TV.module 7, TV.cls 8 9] (PNode.subModule 2)
    (by
      intro t ht
      rw [_follow_path_name]
      simp only [List.mem_cons, List.not_mem_nil, or_false] at ht
      rcases ht with rfl | rfl <;>
        simp [isFuncTV, filter_private_variable, find_types, wCollab, follow_path_nil])

/-- C4: a name starting with a double underscore and not ending with one,
resolved on an instance, yields the empty Type Set when the nearest
enclosing Class/Instance/CompiledObject of the calling scope is a class
other than the class of the instance (in the source the comparison target
is scope.base.base, the pr.Class wrapped by the er.Class of the instance;
an enclosing class can never equal the er.Class wrapper itself, so
"neither the defining class nor, one level of `.base` up, the wrapped
class" reduces to this disequality), and yields the attribute Type Set
produced by find_types/follow_imports when resolved from within a method
of that very class (which is also the situation for a subclass instance
whose method resolves an inherited private name: the enclosing class is
then the class of the instance). -/
theorem c4_private_visibility (C : Collab) (n : NameRef) (iid clsId baseId : Nat)
    (cs : PNode)
    (h1 : startsWithDunder n.str = true) (h2 : endsWithDunder n.str = false) :
    (∀ c p, parentUntilCIC cs = PNode.classNode c p → c ≠ baseId →
      follow_path C [Segment.name n] [TV.inst iid (InstBase.ofClass clsId baseId)] cs
        = []) ∧
    (∀ p, parentUntilCIC cs = PNode.classNode baseId p →
      follow_path C [Segment.name n] [TV.inst iid (InstBase.ofClass clsId baseId)] cs
        = C.followImports (find_types C
            (SScope.tv (TV.inst iid (InstBase.ofClass clsId baseId)))
            n.str none false true)) := by
  constructor
  · intro c p hpc hne
    have hf : filter_private_variable (TV.inst iid (InstBase.ofClass clsId baseId))
        cs n.str = true := by
      simp [filter_private_variable, h1, h2, hpc, sIsInstance, sIsPrClass, hne]
    rw [follow_path, followBranches_cons_flatMap]
    simp [_follow_path_name, isFuncTV, hf]
  · intro p hpc
    have hf : filter_private_variable (TV.inst iid (InstBase.ofClass clsId baseId))
        cs n.str = false := by
      simp [filter_private_variable, h1, h2, hpc, sIsInstance, sIsPrClass]
    rw [follow_path, followBranches_cons_flatMap]
    simp [_follow_path_name, isFuncTV, hf, follow_path_nil]

theorem c4_private_visibility_witness :
    follow_path wCollab [Segment.name (NameRef.mk 3 "__secret")]
      [TV.inst 10 (InstBase.ofClass 20 30)] (PNode.classNode 99 (PNode.subModule 0))
      = [] ∧
    follow_path wCollab [Segment.name (NameRef.mk 3 "__secret")]
      [TV.inst 10 (InstBase.ofClass 20 30)] (PNode.classNode 30 (PNode.subModule 0))
      = wCollab.followImports (find_types wCollab
          (SScope.tv (TV.inst 10 (InstBase.ofClass 20 30))) "__secret" none false true) :=
  ⟨(c4_private_visibility wCollab (NameRef.mk 3 "__secret") 10 20 30
      (PNode.classNode 99 (PNode.subModule 0)) (by decide) (by decide)).1
      99 (PNode.subModule 0) rfl (by decide),
   (c4_private_visibility wCollab (NameRef.mk 3 "__secret") 10 20 30
      (PNode.classNode 30 (PNode.subModule 0)) (by decide) (by decide)).2
      (PNode.subModule 0) rfl⟩

/-- C10: the private-name filter can only block when the chained-through
candidate is an er.Instance — on any other value it returns false for
every calling scope; a function-typed candidate bypasses the filter
entirely, its name elements being resolved through the magic function
scope; and every non-Instance, non-Function candidate goes straight to
the find_types/follow_imports lookup, never through the blocked branch. -/
theorem c10_filter_only_instances (C : Collab) (typ : TV) (cs : PNode)
    (n : NameRef) (rest : List Segment) :
    (isInstanceTV typ = false → ∀ s, filter_private_variable typ s n.str = false) ∧
    (isFuncTV typ = true →
      _follow_path C (Segment.name n :: rest) typ cs
        = some (follow_path C rest
            (C.followImports (find_types C
              (SScope.tv (C.magicFunctionScope typ)) n.str none false true)) cs)) ∧
    (isInstanceTV typ = false → isFuncTV typ = false →
      _follow_path C (Segment.name n :: rest) typ cs
        = some (follow_path C rest
            (C.followImports (find_types C (SScope.tv typ) n.str none false true))
            cs)) := by
  refine ⟨?_, ?_, ?_⟩
  · intro h s
    cases typ <;> simp_all [filter_private_variable, isInstanceTV]
  · intro h
    rw [_follow_path_name]
    simp [h]
  · intro hni hnf
    have hf : filter_private_variable typ cs n.str = false := by
      cases typ <;> simp_all [filter_private_variable, isInstanceTV]
    rw [_follow_path_name]
    simp [hnf, hf]

theorem c10_filter_only_instances_witness :
    filter_private_variable (TV.module 4) (PNode.subModule 0)
      (NameRef.mk 0 "__x").str = false ∧
    _follow_path wCollab [Segment.name (NameRef.mk 0 "__x")] (TV.func 5 [])
      (PNode.subModule 0)
      = some (follow_path wCollab []
          (wCollab.followImports (find_types wCollab
            (SScope.tv (wCollab.magicFunctionScope (TV.func 5 [])))
            (NameRef.mk 0 "__x").str none false true)) (PNode.subModule 0)) ∧
    _follow_path wCollab [Segment.name (NameRef.mk 0 "__x")] (TV.module 4)
      (PNode.subModule 0)
      = some (follow_path wCollab []
          (wCollab.followImports (find_types wCollab (SScope.tv (TV.module 4))
            (NameRef.mk 0 "__x").str none false true)) (PNode.subModule 0)) :=
  ⟨(c10_filter_only_instances wCollab (TV.module 4) (PNode.subModule 0)
      (NameRef.mk 0 "__x") []).1 rfl (PNode.subModule 0),
   (c10_filter_only_instances wCollab (TV.func 5 []) (PNode.subModule 0)
      (NameRef.mk 0 "__x") []).2.1 rfl,
   (c10_filter_only_instances wCollab (TV.module 4) (PNode.subModule 0)
      (NameRef.mk 0 "__x") []).2.2 rfl rfl⟩

/-- C6: execute first asks the standard-library simulator (a some result
is returned as is); when the simulator signals "not applicable" (none,
the NotInStdLib exception of the source) the result comes from the
py__call__ capability of the (decorator-unwrapped) value applied to the
arguments; and when the value has no call capability at all, execute
returns the empty Type Set together with the emitted
"no execution possible" diagnostic flag, without raising (the function is
total by construction). -/
theorem c6_execute_fallback (C : Collab) (obj : TV) (args : ArrNode) :
    (∀ r, C.stdlibExec (if isFuncTV obj then C.getDecoratedFunc obj else obj) args
        = some r → execute C obj args = (r, false)) ∧
    (∀ f, C.stdlibExec (if isFuncTV obj then C.getDecoratedFunc obj else obj) args
        = none →
      C.pyCall (if isFuncTV obj then C.getDecoratedFunc obj else obj) = some f →
      execute C obj args = (f args, false)) ∧
    (C.stdlibExec (if isFuncTV obj then C.getDecoratedFunc obj else obj) args = none →
      C.pyCall (if isFuncTV obj then C.getDecoratedFunc obj else obj) = none →
      execute C obj args = ([], true)) := by
  refine ⟨?_, ?_, ?_⟩
  · intro r h
    simp [execute, h]
  · intro f h1 h2
    simp [execute, h1, h2]
  · intro h1 h2
    simp [execute, h1, h2]

/-- Concrete array node used by witnesses. -/
def wArr : ArrNode := ArrNode.mk 0 ArrType.tuple [] none

/-- Witness collaborator whose stdlib simulator always applies. -/
def wCollabStd : Collab := { wCollab with stdlibExec := fun _ _ => some [TV.compiled 1] }

/-- Witness collaborator with no stdlib match but a call capability. -/
def wCollabCall : Collab :=
  { wCollab with pyCall := fun _ => some (fun _ => [TV.module 2]) }

theorem c6_execute_fallback_witness :
    execute wCollabStd (TV.module 0) wArr = ([TV.compiled 1], false) ∧
    execute wCollabCall (TV.module 0) wArr = ([TV.module 2], false) ∧
    execute wCollab (TV.module 0) wArr = ([], true) :=
  ⟨(c6_execute_fallback wCollabStd (TV.module 0) wArr).1 [TV.compiled 1] rfl,
   (c6_execute_fallback wCollabCall (TV.module 0) wArr).2.1 (fun _ => [TV.module 2]) rfl rfl,
   (c6_execute_fallback wCollab (TV.module 0) wArr).2.2 rfl rfl⟩

/-- C7: for an augmented assignment (first operator differing from a plain
equals sign) whose statement is not a wrapped instance element,
eval_statement looks the target name up in the enclosing non-Flow scope
(wrapped into a module facade at top level) at the statement position and
combines it with the evaluated right-hand side through the external
binary-operator evaluator: folding once per produced value when the direct
parent is a for-loop construct, and combining exactly once otherwise. -/
theorem c7_aug_assign (C : Collab) (stmt : Stmt) (seek : Option String)
    (tgt : AssTarget) (op : String) (rest : List (AssTarget × String))
    (hfake : stmt.fake = none)
    (hass : stmt.assDetails = (tgt, op) :: rest)
    (hop : op ≠ "=")
    (hie : stmt.isInstanceElement = false) :
    (isForFlow stmt.parent = true →
      eval_statement C stmt seek
        = (eval_expression_list C stmt.exprListH).foldl
            (fun l r => C.calculate l (String.mk op.data.dropLast) [r])
            (find_types C (wrapIfModule (skipFlows stmt.parent)) tgt.name
              (some stmt.startPos) false true)) ∧
    (isForFlow stmt.parent = false →
      eval_statement C stmt seek
        = C.calculate
            (find_types C (wrapIfModule (skipFlows stmt.parent)) tgt.name
              (some stmt.startPos) false true)
            (String.mk op.data.dropLast)
            (eval_expression_list C stmt.exprListH)) := by
  constructor <;> intro h <;> simp [eval_statement, hfake, hass, hop, hie, h]

/-- Concrete augmented-assignment statement inside a for-loop. -/
def wStmtFor : Stmt :=
  Stmt.mk 1 none 0 [(AssTarget.mk 0 "x", "+=")] false
    (PNode.forFlow 5 (PNode.subModule 0)) (1, 0) [NameRef.mk 0 "x"]

/-- Concrete top-level augmented-assignment statement. -/
def wStmtPlain : Stmt :=
  Stmt.mk 2 none 0 [(AssTarget.mk 0 "x", "+=")] false
    (PNode.subModule 0) (1, 0) [NameRef.mk 0 "x"]

theorem c7_aug_assign_witness :
    (eval_statement wCollab wStmtFor none
      = (eval_expression_list wCollab wStmtFor.exprListH).foldl
          (fun l r => wCollab.calculate l (String.mk ("+=").data.dropLast) [r])
          (find_types wCollab (wrapIfModule (skipFlows wStmtFor.parent))
            (AssTarget.mk 0 "x").name (some wStmtFor.startPos) false true)) ∧
    (eval_statement wCollab wStmtPlain none
      = wCollab.calculate
          (find_types wCollab (wrapIfModule (skipFlows wStmtPlain.parent))
            (AssTarget.mk 0 "x").name (some wStmtPlain.startPos) false true)
          (String.mk ("+=").data.dropLast)
          (eval_expression_list wCollab wStmtPlain.exprListH)) :=
  ⟨(c7_aug_assign wCollab wStmtFor none (AssTarget.mk 0 "x") "+=" [] rfl rfl
      (by decide) rfl).1 rfl,
   (c7_aug_assign wCollab wStmtPlain none (AssTarget.mk 0 "x") "+=" [] rfl rfl
      (by decide) rfl).2 rfl⟩

/-- C8: a goto on a one-element Name path whose name is one of the defined
names of its own statement returns that defining name itself, except that
a statement sitting in a call-argument tuple with a previous sibling
(named-parameter call site) reconstructs the call by walking to the front
of the sibling chain, evaluates the callable and returns the declared
parameter definitions whose string matches the first defined name (an
er.Class contributing the params of its `__init__` methods). -/
theorem c8_goto_definition (C : Collab) (s : Stmt) (n : NameRef)
    (hmem : n ∈ s.definedNames) :
    (gotoParamCall s = none → goto C (GotoStmt.stmt s) [Segment.name n] = [n]) ∧
    (∀ call, gotoParamCall s = some call →
      goto C (GotoStmt.stmt s) [Segment.name n]
        = gotoParamNames C (eval_call C call)
            (s.definedNames.headD (NameRef.mk 0 ""))) := by
  constructor
  · intro h
    simp [goto, hmem, h]
  · intro call h
    simp [goto, hmem, h]

/-- Concrete defining statement with no call-argument parent. -/
def wStmtDef : Stmt :=
  Stmt.mk 3 none 0 [] false (PNode.subModule 0) (1, 0) [NameRef.mk 7 "arg"]

/-- Concrete call node used as the front of a sibling chain. -/
def wCallNode : CallNode :=
  CallNode.mk [Segment.name (NameRef.mk 9 "f")] (PNode.subModule 0) (2, 0)

/-- Concrete defining statement sitting in a call-argument tuple whose
previous sibling chain walks back to wCallNode. -/
def wStmtParam : Stmt :=
  Stmt.mk 4 none 0 [] false
    (PNode.arrParent 4 ArrType.tuple
      (some (CallChain.cons (CallNode.mk [] (PNode.subModule 0) (0, 0))
        (CallChain.base wCallNode)))
      (PNode.subModule 0))
    (1, 0) [NameRef.mk 7 "arg"]

theorem c8_goto_definition_witness :
    goto wCollab (GotoStmt.stmt wStmtDef) [Segment.name (NameRef.mk 7 "arg")]
      = [NameRef.mk 7 "arg"] ∧
    goto wCollab (GotoStmt.stmt wStmtParam) [Segment.name (NameRef.mk 7 "arg")]
      = gotoParamNames wCollab (eval_call wCollab wCallNode)
          (wStmtParam.definedNames.headD (NameRef.mk 0 "")) :=
  ⟨(c8_goto_definition wCollab wStmtDef (NameRef.mk 7 "arg") (by simp [wStmtDef, Stmt.definedNames])).1 rfl,
   (c8_goto_definition wCollab wStmtParam (NameRef.mk 7 "arg") (by simp [wStmtParam, Stmt.definedNames])).2
      wCallNode rfl⟩

/-- C9: a goto on an import with an alias, asked for a path starting with
the alias token, returns exactly that token itself; the result does not
depend on the import-wrapper collaborator, so no transitive resolution
into the imported module takes place. -/
theorem c9_goto_import_alias (C : Collab) (imp : ImportData) (a : NameRef)
    (rest : List Segment) (halias : imp.aliasName = some a) :
    goto C (GotoStmt.imp imp) (Segment.name a :: rest) = [a] := by
  simp [goto, halias]

theorem c9_goto_import_alias_witness :
    goto wCollab
      (GotoStmt.imp (ImportData.mk 0 (some (NameRef.mk 5 "bar"))
        [NameRef.mk 6 "foo", NameRef.mk 5 "bar"]))
      [Segment.name (NameRef.mk 5 "bar")] = [NameRef.mk 5 "bar"] :=
  c9_goto_import_alias wCollab
    (ImportData.mk 0 (some (NameRef.mk 5 "bar")) [NameRef.mk 6 "foo", NameRef.mk 5 "bar"])
    (NameRef.mk 5 "bar") [] rfl

/-- C1: for any pair of mutually recursive statements (a = b and b = a,
with distinct names), guarded evaluation of each terminates — the fuel of
3 is never exhausted, certified by the some result — and returns the empty
Type Set; and in general a re-entry of the guard on a key already marked
in progress (and not yet cached) returns the empty Type Set immediately,
leaving the state untouched and not invoking the statement body. -/
theorem c1_recursion_guard (a b : String) (hab : a ≠ b) :
    ((evalName [(a, RExpr.ref b), (b, RExpr.ref a)] 3 (RState.mk [] []) a).2
        = some [] ∧
     (evalName [(a, RExpr.ref b), (b, RExpr.ref a)] 3 (RState.mk [] []) b).2
        = some []) ∧
    (∀ (p : RProg) (fuel : Nat) (st : RState) (n : String),
      n ∈ st.inProgress → cacheLookup st.cache n = none →
      evalName p (fuel + 1) st n = (st, some [])) := by
  refine ⟨⟨?_, ?_⟩, ?_⟩
  · simp [evalName, cacheLookup, rlookup, hab, Ne.symm hab]
  · simp [evalName, cacheLookup, rlookup, hab, Ne.symm hab]
  · intro p fuel st n hmem hcache
    simp [evalName, hmem, hcache]

theorem c1_recursion_guard_witness :
    ((evalName [("a", RExpr.ref "b"), ("b", RExpr.ref "a")] 3 (RState.mk [] []) "a").2
        = some [] ∧
     (evalName [("a", RExpr.ref "b"), ("b", RExpr.ref "a")] 3 (RState.mk [] []) "b").2
        = some []) ∧
    (∀ (p : RProg) (fuel : Nat) (st : RState) (n : String),
      n ∈ st.inProgress → cacheLookup st.cache n = none →
      evalName p (fuel + 1) st n = (st, some [])) :=
  c1_recursion_guard "a" "b" (by decide)

/-- After an update, the memo holds the updated value under the key. -/
lemma mLookup_mUpdate {kk : Type} [DecidableEq kk] (m : List (kk × List TV))
    (k : kk) (v : List TV) : mLookup (mUpdate m k v) k = some v := by
  induction m with
  | nil => simp [mUpdate, mLookup]
  | cons p rest ih =>
    obtain ⟨k2, v2⟩ := p
    by_cases h : k2 = k
    · simp [mUpdate, mLookup, h]
    · simp [mUpdate, mLookup, h, ih]

/-- C5: a key already in the memo is answered from the cache with the
identical Type Set and an untouched state (in particular the collaborator
invocation counter does not move, so no lookup or import collaborator
runs); before the first computation completes the entry cached under the
key is the empty Type Set; and evaluating the same key a second time after
a first computation returns the very Type Set of the first call, again
from the cache with an unchanged state. -/
theorem c5_memoization {kk : Type} [DecidableEq kk] (k : kk)
    (compute : MemoState kk → MemoState kk × List TV) (st : MemoState kk) :
    (∀ r, mLookup st.memo k = some r → memoized_eval k compute st = (st, r)) ∧
    (mLookup (markDefault k st).memo k = some []) ∧
    (mLookup st.memo k = none →
      memoized_eval k compute ((memoized_eval k compute st).1)
        = ((memoized_eval k compute st).1, (memoized_eval k compute st).2)) := by
  refine ⟨?_, ?_, ?_⟩
  · intro r h
    simp [memoized_eval, h]
  · simp [markDefault, mLookup]
  · intro h
    simp [memoized_eval, h, mLookup_mUpdate]

/-- Concrete memo computation: bumps the collaborator call counter and
returns one module value. -/
def wCompute : MemoState (Nat × Option String) → MemoState (Nat × Option String) × List TV :=
  fun st => (MemoState.mk st.memo (st.calls + 1), [TV.module 3])

theorem c5_memoization_witness :
    (memoized_eval (1, some "x") wCompute
        (MemoState.mk [((1, some "x"), [TV.module 3])] 5)
      = (MemoState.mk [((1, some "x"), [TV.module 3])] 5, [TV.module 3])) ∧
    (mLookup (markDefault (1, some "x")
        (MemoState.mk ([] : List ((Nat × Option String) × List TV)) 0)).memo
        (1, some "x") = some []) ∧
    (memoized_eval (1, some "x") wCompute
        ((memoized_eval (1, some "x") wCompute
          (MemoState.mk ([] : List ((Nat × Option String) × List TV)) 0)).1)
      = ((memoized_eval (1, some "x") wCompute
          (MemoState.mk ([] : List ((Nat × Option String) × List TV)) 0)).1,
         (memoized_eval (1, some "x") wCompute
          (MemoState.mk ([] : List ((Nat × Option String) × List TV)) 0)).2)) :=
  ⟨(c5_memoization (1, some "x") wCompute
      (MemoState.mk [((1, some "x"), [TV.module 3])] 5)).1 [TV.module 3] rfl,
   (c5_memoization (1, some "x") wCompute
      (MemoState.mk ([] : List ((Nat × Option String) × List TV)) 0)).2.1,
   (c5_memoization (1, some "x") wCompute
      (MemoState.mk ([] : List ((Nat × Option String) × List TV)) 0)).2.2 rfl⟩
